import Mathlib

/-!
Shallow embedding of the communication-app repository's file-transfer,
file-access and authentication logic, with theorems checking the
natural-language specification against it.

Embedded source files:
- backend/src/files/file.controller.ts   (FileController: whitelist upload,
  id-based download, file info, checkFileAccess)
- backend/src/files/files.controller.ts  (FilesController: relay upload that
  persists a Message and notifies, filename-based download)
- backend/src/auth: ManualAuthService, GoogleAuthService
- prisma schema / SQL migrations (users, messages, files tables)
- frontend/components/MessageInput.tsx   (getFileTransferMethod)
-/

/-! ## Data model (from the prisma schema and SQL migrations) -/

/-- A row of the `users` table: `password`, `googleId`, `avatar` are nullable
(`password TEXT`, optional for OAuth users). -/
structure UserRec where
  id : String
  email : String
  username : String
  password : Option String
  googleId : Option String
  avatar : Option String
deriving DecidableEq, Repr

/-- A row of the `messages` table (schema plus the migration adding `fileId`):
`isRead BOOLEAN NOT NULL DEFAULT false`, `type TEXT NOT NULL DEFAULT 'text'`,
nullable file columns, and the nullable `fileId` foreign key into `files`. -/
structure MessageRec where
  id : String
  content : String
  isRead : Bool
  type : String
  fileName : Option String
  fileSize : Option Nat
  fileType : Option String
  fileUrl : Option String
  fileId : Option String
  senderId : String
  receiverId : String
deriving DecidableEq, Repr

/-- A row of the `files` table created by the migration in the repository. -/
structure FileRec where
  id : String
  originalName : String
  fileName : String
  mimeType : String
  size : Nat
  path : String
  uploaderId : String
deriving DecidableEq, Repr

/-- The persisted state reachable through the Prisma storage collaborator. -/
structure DB where
  users : List UserRec
  messages : List MessageRec
  files : List FileRec
deriving DecidableEq, Repr

/-- `files.id` is the primary key: two rows of `files` with the same id are
the same row. -/
def FilesWF (db : DB) : Prop :=
  ∀ f g, f ∈ db.files → g ∈ db.files → f.id = g.id → f = g

/-- `messages.id` is the primary key: two rows of `messages` with the same id
are the same row. -/
def MessagesWF (db : DB) : Prop :=
  ∀ a b, a ∈ db.messages → b ∈ db.messages → a.id = b.id → a = b

/-- `users.email` carries a UNIQUE index (`users_email_key`): two rows of
`users` with the same email are the same row. -/
def UsersEmailWF (db : DB) : Prop :=
  ∀ a b, a ∈ db.users → b ∈ db.users → a.email = b.email → a = b

/-! ## Frontend strategy selection (MessageInput.tsx, getFileTransferMethod) -/

/-- The browser `File` fields the selection logic reads. -/
structure SelectedFile where
  name : String
  size : Nat
deriving DecidableEq, Repr

/-- `getFileTransferMethod` from MessageInput.tsx, verbatim: empty label with
no selected file; otherwise large files (strictly more than 10 * 1024 * 1024
bytes) get the server-upload label, then offline receivers get the
server-upload label, and only the remaining case is labelled P2P. -/
def getFileTransferMethod (selectedFile : Option SelectedFile)
    (isUserOnline : Bool) : String :=
  match selectedFile with
  | none => ""
  | some f =>
    let isLargeFile : Bool := f.size > 10 * 1024 * 1024
    if isLargeFile then " (Server upload - large file)"
    else if !isUserOnline then " (Server upload - user offline)"
    else " (P2P preferred, server fallback)"

/-- The two transfer strategies of the spec's FileTransfer record. -/
inductive Strategy where
  | p2p
  | relay
deriving DecidableEq, Repr

/-- Reading the strategy off the label the frontend shows: both
server-upload labels mean relay, the P2P label means p2p. -/
def methodStrategy (s : String) : Option Strategy :=
  if s = " (Server upload - large file)" then some Strategy.relay
  else if s = " (Server upload - user offline)" then some Strategy.relay
  else if s = " (P2P preferred, server fallback)" then some Strategy.p2p
  else none

/-! ## Upload admission (file.controller.ts and files.controller.ts) -/

/-- `MAX_FILE_SIZE` from file.controller.ts. -/
def MAX_FILE_SIZE : Nat := 50 * 1024 * 1024

/-- `ALLOWED_MIME_TYPES` from file.controller.ts, verbatim. -/
def ALLOWED_MIME_TYPES : List String := [
  "image/jpeg",
  "image/png",
  "image/gif",
  "image/webp",
  "image/svg+xml",
  "application/pdf",
  "application/msword",
  "application/vnd.openxmlformats-officedocument.wordprocessingml.document",
  "application/vnd.ms-excel",
  "application/vnd.openxmlformats-officedocument.spreadsheetml.sheet",
  "application/vnd.ms-powerpoint",
  "application/vnd.openxmlformats-officedocument.presentationml.presentation",
  "text/plain",
  "text/csv",
  "application/zip",
  "application/x-rar-compressed",
  "application/x-7z-compressed",
  "audio/mpeg",
  "audio/wav",
  "audio/ogg",
  "video/mp4",
  "video/mpeg",
  "video/quicktime",
  "video/webm"]

/-- The multer `fileSize` limit of FilesController.uploadFile
(`50 * 1024 * 1024, // 50MB limit for fallback uploads`). -/
def filesControllerFileSizeLimit : Nat := 50 * 1024 * 1024

/-- HTTP-level errors thrown by the controllers: NestJS `NotFoundException`
and `BadRequestException` with their message strings. -/
inductive HttpError where
  | notFound (msg : String)
  | badRequest (msg : String)
deriving DecidableEq, Repr

deriving instance DecidableEq for Except

/-- The multer `fileFilter` of FileController.uploadFile: accept when the
mimetype is in `ALLOWED_MIME_TYPES`, otherwise fail with
`BadRequestException`. -/
def fileControllerFileFilter (mimetype : String) : Except HttpError Bool :=
  if ALLOWED_MIME_TYPES.contains mimetype then Except.ok true
  else Except.error (HttpError.badRequest
    ("File type " ++ mimetype ++ " is not allowed"))

/-- The multer `fileFilter` of FilesController.uploadFile:
`callback(null, true); // Allow all file types`. -/
def filesControllerFileFilter (_mimetype : String) : Except HttpError Bool :=
  Except.ok true

/-! ## Theorems for C2 and C10 -/

/-- C2: the frontend selects relay exactly when the file is strictly larger
than 10 MiB or the receiver is offline, and p2p otherwise; in particular a
large file is relayed even when the receiver is online. -/
theorem C2_strategy_policy (f : SelectedFile) (isUserOnline : Bool) :
    (methodStrategy (getFileTransferMethod (some f) isUserOnline)
        = some Strategy.relay
      ↔ (f.size > 10 * 1024 * 1024 ∨ isUserOnline = false)) ∧
    (methodStrategy (getFileTransferMethod (some f) isUserOnline)
        = some Strategy.p2p
      ↔ (f.size ≤ 10 * 1024 * 1024 ∧ isUserOnline = true)) ∧
    (f.size > 10 * 1024 * 1024 →
      methodStrategy (getFileTransferMethod (some f) isUserOnline)
        = some Strategy.relay) := by
  unfold getFileTransferMethod methodStrategy
  by_cases hl : f.size > 10 * 1024 * 1024
  · simp [hl]
  · cases isUserOnline <;> simp [hl]
    omega

/-- Witness for C2 at a concrete input: a 20 MiB file with the receiver
online is relayed. -/
theorem C2_strategy_policy_witness :
    methodStrategy (getFileTransferMethod
        (some { name := "a.bin", size := 20 * 1024 * 1024 }) true)
      = some Strategy.relay :=
  (C2_strategy_policy { name := "a.bin", size := 20 * 1024 * 1024 } true).2.2
    (by decide)

/-- C10 counterexample: the whitelist of FileController has 24 entries, not
the 23 the claim states. -/
theorem C10_counterexample :
    ALLOWED_MIME_TYPES.length = 24 ∧ ¬ ALLOWED_MIME_TYPES.length = 23 := by
  constructor
  · rfl
  · intro h
    simp [ALLOWED_MIME_TYPES] at h

/-- C10 (amended): both upload endpoints share the 50 MiB multer size limit,
but FileController admits exactly the 24 whitelisted MIME types and rejects
every other type with `BadRequestException`, while FilesController admits
every MIME type. -/
theorem C10_admission_rules :
    ALLOWED_MIME_TYPES.length = 24 ∧
    MAX_FILE_SIZE = 50 * 1024 * 1024 ∧
    filesControllerFileSizeLimit = 50 * 1024 * 1024 ∧
    (∀ m : String,
      (fileControllerFileFilter m = Except.ok true ↔ m ∈ ALLOWED_MIME_TYPES) ∧
      (m ∉ ALLOWED_MIME_TYPES →
        fileControllerFileFilter m = Except.error (HttpError.badRequest
          ("File type " ++ m ++ " is not allowed"))) ∧
      filesControllerFileFilter m = Except.ok true) := by
  refine ⟨rfl, rfl, rfl, fun m => ⟨?_, ?_, rfl⟩⟩
  · unfold fileControllerFileFilter
    by_cases hm : m ∈ ALLOWED_MIME_TYPES <;> simp [hm]
  · intro hmem
    unfold fileControllerFileFilter
    simp [hmem]

/-- Witness for C10 at concrete inputs: a PNG passes the whitelist filter, a
gzip tarball does not, and the permissive filter accepts the tarball. -/
theorem C10_admission_rules_witness :
    fileControllerFileFilter "image/png" = Except.ok true ∧
    fileControllerFileFilter "application/gzip"
      = Except.error (HttpError.badRequest
          "File type application/gzip is not allowed") ∧
    filesControllerFileFilter "application/gzip" = Except.ok true := by
  refine ⟨?_, ?_, (C10_admission_rules.2.2.2 "application/gzip").2.2⟩
  · exact ((C10_admission_rules.2.2.2 "image/png").1).mpr (by decide)
  · exact (C10_admission_rules.2.2.2 "application/gzip").2.1 (by decide)

/-! ## Access control and file retrieval
(file.controller.ts checkFileAccess / getFile / getFileInfo,
files.controller.ts downloadFile) -/

/-- `FileController.checkFileAccess(fileId, userId)`: look the file up by id;
if `file?.uploaderId === userId` return true; otherwise return whether a
message with `fileId` equal to this file and the user as sender or receiver
exists (`findFirst`, truthiness of the result). -/
def checkFileAccess (db : DB) (fileId userId : String) : Bool :=
  let file := db.files.find? (fun f => f.id == fileId)
  if file.map FileRec.uploaderId == some userId then true
  else
    (db.messages.find? (fun m =>
      m.fileId == some fileId &&
        (m.senderId == userId || m.receiverId == userId))).isSome

/-- The inline access check of `FilesController.downloadFile`: a message
whose `fileUrl` is `/files/download/<filename>` with the user as sender or
receiver must exist (`findFirst`, truthiness of the result). -/
def downloadAccess (db : DB) (filename userId : String) : Bool :=
  (db.messages.find? (fun m =>
    m.fileUrl == some ("/files/download/" ++ filename) &&
      (m.senderId == userId || m.receiverId == userId))).isSome

/-- `FileController.getFile`: 404 `File not found` when the id is unknown,
the same 404 `File not found` when `checkFileAccess` is negative,
404 `File not found on disk` when the path is missing, otherwise the file
record is streamed to the caller. `disk` is the set of paths present on
disk. -/
def getFile (db : DB) (disk : List String) (id userId : String) :
    Except HttpError FileRec :=
  match db.files.find? (fun f => f.id == id) with
  | none => Except.error (HttpError.notFound "File not found")
  | some file =>
    if checkFileAccess db id userId then
      if disk.contains file.path then Except.ok file
      else Except.error (HttpError.notFound "File not found on disk")
    else Except.error (HttpError.notFound "File not found")

/-- `FileController.getFileInfo`: like `getFile` but without touching the
disk; returns the metadata record. -/
def getFileInfo (db : DB) (id userId : String) : Except HttpError FileRec :=
  match db.files.find? (fun f => f.id == id) with
  | none => Except.error (HttpError.notFound "File not found")
  | some file =>
    if checkFileAccess db id userId then Except.ok file
    else Except.error (HttpError.notFound "File not found")

/-- `FilesController.downloadFile`: 400 when the JWT payload has no user id,
404 `File not found` when `./uploads/<filename>` is missing from disk, then
the fileUrl-based access check; on a negative check
404 `File not found or access denied`, otherwise the matching message is
returned and the bytes are streamed. -/
def downloadFile (db : DB) (disk : List String) (filename : String)
    (userId? : Option String) : Except HttpError MessageRec :=
  match userId? with
  | none => Except.error (HttpError.badRequest "Invalid user authentication")
  | some userId =>
    if disk.contains ("./uploads/" ++ filename) then
      match db.messages.find? (fun m =>
        m.fileUrl == some ("/files/download/" ++ filename) &&
          (m.senderId == userId || m.receiverId == userId)) with
      | none =>
        Except.error (HttpError.notFound "File not found or access denied")
      | some m => Except.ok m
    else Except.error (HttpError.notFound "File not found")

/-- The Access Guard predicate in the spec's words: authorized iff the
requesting account is the file's uploader OR is sender/receiver of at least
one persisted Message referencing that file (the `messages.fileId` foreign
key is the schema's file reference). -/
def canReadSpec (db : DB) (fileId accountId : String) : Prop :=
  (∃ f ∈ db.files, f.id = fileId ∧ f.uploaderId = accountId) ∨
  (∃ m ∈ db.messages, m.fileId = some fileId ∧
    (m.senderId = accountId ∨ m.receiverId = accountId))

/-! ### Helper lemmas about find? -/

theorem find?_isSome_iff {α : Type} (p : α → Bool) (l : List α) :
    (l.find? p).isSome = true ↔ ∃ x ∈ l, p x = true := by
  induction l with
  | nil => simp [List.find?]
  | cons a t ih =>
    by_cases ha : p a
    · simp [List.find?, ha]
    · simp only [List.find?, ha, ih]
      simp [ha]

theorem find?_mem_and_pred {α : Type} {p : α → Bool} {l : List α} {a : α}
    (h : l.find? p = some a) : a ∈ l ∧ p a = true :=
  ⟨List.mem_of_find?_eq_some h, List.find?_some h⟩

theorem msgFileIdFind_iff (db : DB) (fileId accountId : String) :
    (db.messages.find? (fun m =>
        m.fileId == some fileId &&
          (m.senderId == accountId || m.receiverId == accountId))).isSome
        = true ↔
      ∃ m ∈ db.messages, m.fileId = some fileId ∧
        (m.senderId = accountId ∨ m.receiverId = accountId) := by
  rw [find?_isSome_iff]
  simp

theorem msgFileUrlFind_iff (db : DB) (filename accountId : String) :
    (db.messages.find? (fun m =>
        m.fileUrl == some ("/files/download/" ++ filename) &&
          (m.senderId == accountId || m.receiverId == accountId))).isSome
        = true ↔
      ∃ m ∈ db.messages, m.fileUrl = some ("/files/download/" ++ filename) ∧
        (m.senderId = accountId ∨ m.receiverId = accountId) := by
  rw [find?_isSome_iff]
  simp

/-! ## Theorems for C1, C5, C8 -/

/-- C1 (amended): under the primary-key invariant on `files`, the id-based
access check grants access exactly to the uploader and to sender/receiver of
a message whose `fileId` references the file, while the filename-based
download path grants access exactly to sender/receiver of a message whose
`fileUrl` references the filename — the uploader is not otherwise authorized
on that path. -/
theorem C1_access_checks (db : DB) (hWF : FilesWF db) :
    (∀ fileId accountId : String,
      checkFileAccess db fileId accountId = true ↔
        ((∃ f ∈ db.files, f.id = fileId ∧ f.uploaderId = accountId) ∨
         (∃ m ∈ db.messages, m.fileId = some fileId ∧
           (m.senderId = accountId ∨ m.receiverId = accountId)))) ∧
    (∀ filename accountId : String,
      downloadAccess db filename accountId = true ↔
        (∃ m ∈ db.messages,
          m.fileUrl = some ("/files/download/" ++ filename) ∧
          (m.senderId = accountId ∨ m.receiverId = accountId))) := by
  constructor
  · intro fileId accountId
    unfold checkFileAccess
    cases hf : db.files.find? (fun f => f.id == fileId) with
    | none =>
      have hno : ∀ f ∈ db.files, ¬ f.id = fileId := by
        intro f hfmem heq
        have hp := List.find?_eq_none.mp hf f hfmem
        simp [heq] at hp
      rw [if_neg (by simp)]
      rw [msgFileIdFind_iff]
      constructor
      · exact fun h => Or.inr h
      · rintro (⟨f, hfm, hid, _⟩ | h)
        · exact absurd hid (hno f hfm)
        · exact h
    | some f0 =>
      obtain ⟨hf0mem, hf0p⟩ := find?_mem_and_pred hf
      have hf0id : f0.id = fileId := by simpa using hf0p
      by_cases hup : f0.uploaderId = accountId
      · rw [if_pos (by simp [hup])]
        simp only [true_iff]
        exact Or.inl ⟨f0, hf0mem, hf0id, hup⟩
      · rw [if_neg (by simp [hup])]
        rw [msgFileIdFind_iff]
        constructor
        · exact fun h => Or.inr h
        · rintro (⟨f, hfm, hid, hu⟩ | h)
          · have hff : f = f0 := hWF f f0 hfm hf0mem (by rw [hid, hf0id])
            exact absurd (by rw [← hff]; exact hu) hup
          · exact h
  · intro filename accountId
    exact msgFileUrlFind_iff db filename accountId

/-- The file of the C1 counterexample: uploaded by alice, never referenced
by any message. -/
def exC1File : FileRec :=
  { id := "f1", originalName := "notes.txt", fileName := "ab.txt",
    mimeType := "text/plain", size := 5, path := "uploads/ab.txt",
    uploaderId := "alice" }

/-- The database of the C1 counterexample: one file, no messages. -/
def exC1DB : DB := { users := [], messages := [], files := [exC1File] }

/-- C1 counterexample: alice is the uploader of the file, so the spec's
access predicate authorizes her, yet the filename-based download path denies
her: its check is false and the endpoint answers 404. -/
theorem C1_counterexample :
    canReadSpec exC1DB "f1" "alice" ∧
    downloadAccess exC1DB exC1File.fileName "alice" = false ∧
    downloadFile exC1DB ["./uploads/" ++ exC1File.fileName]
        exC1File.fileName (some "alice")
      = Except.error (HttpError.notFound "File not found or access denied") := by
  refine ⟨Or.inl ⟨exC1File, by simp [exC1DB], rfl, rfl⟩, rfl, ?_⟩
  rfl

/-- A message referencing the C1 witness file both by `fileId` and by
`fileUrl`, sent by alice to bob. -/
def exC1Msg : MessageRec :=
  { id := "m1", content := "Sent a file: notes.txt", isRead := false,
    type := "file", fileName := some "notes.txt", fileSize := some 5,
    fileType := some "text/plain",
    fileUrl := some "/files/download/ab.txt", fileId := some "f1",
    senderId := "alice", receiverId := "bob" }

/-- The database of the C1 witness: one file, one message referencing it. -/
def exC1WitDB : DB := { users := [], messages := [exC1Msg], files := [exC1File] }

/-- Witness for C1 at a concrete input: bob, receiver of the message
referencing the file, passes both access checks. -/
theorem C1_access_checks_witness :
    checkFileAccess exC1WitDB "f1" "bob" = true ∧
    downloadAccess exC1WitDB "ab.txt" "bob" = true := by
  have hWF : FilesWF exC1WitDB := by
    intro f g hf hg
    simp [exC1WitDB] at hf hg
    rw [hf, hg]
    intro _
    rfl
  constructor
  · exact ((C1_access_checks exC1WitDB hWF).1 "f1" "bob").mpr
      (Or.inr ⟨exC1Msg, by simp [exC1WitDB], rfl, Or.inr rfl⟩)
  · exact ((C1_access_checks exC1WitDB hWF).2 "ab.txt" "bob").mpr
      ⟨exC1Msg, by simp [exC1WitDB], by rfl, Or.inr rfl⟩

/-- The file of the C5/C8 examples: uploaded by alice, never referenced by
a message. -/
def exC5File : FileRec :=
  { id := "f1", originalName := "notes.txt", fileName := "ab.txt",
    mimeType := "text/plain", size := 5, path := "uploads/ab.txt",
    uploaderId := "alice" }

/-- The database of the C5/C8 examples: a file uploaded by alice, no
messages, so bob has no access. -/
def exC5DB : DB := { users := [], messages := [], files := [exC5File] }

/-- C5 counterexample: when the access check is negative for an existing
file, the id-based retrieval fails with exactly the same
`NotFoundException("File not found")` value that a nonexistent id produces —
there is no distinct AccessDenied error. -/
theorem C5_counterexample :
    checkFileAccess exC5DB "f1" "bob" = false ∧
    getFile exC5DB ["uploads/ab.txt"] "f1" "bob"
      = Except.error (HttpError.notFound "File not found") ∧
    getFile exC5DB ["uploads/ab.txt"] "missing" "bob"
      = Except.error (HttpError.notFound "File not found") ∧
    getFile exC5DB ["uploads/ab.txt"] "f1" "bob"
      = getFile exC5DB ["uploads/ab.txt"] "missing" "bob" := by
  refine ⟨by decide, by decide, by decide, by decide⟩

/-- C5 (amended): a negative access check makes the id-based retrieval fail
with `NotFoundException("File not found")` — the same exception class and
message as a missing file — and makes the filename-based download fail with
`NotFoundException("File not found or access denied")`; neither path raises
a distinct AccessDenied error. -/
theorem C5_denied_error (db : DB) (disk : List String)
    (id filename userId : String) :
    (checkFileAccess db id userId = false →
      getFile db disk id userId
        = Except.error (HttpError.notFound "File not found")) ∧
    (disk.contains ("./uploads/" ++ filename) = true →
      downloadAccess db filename userId = false →
      downloadFile db disk filename (some userId)
        = Except.error
            (HttpError.notFound "File not found or access denied")) := by
  constructor
  · intro hacc
    unfold getFile
    cases hf : db.files.find? (fun f => f.id == id) with
    | none => rfl
    | some file => simp [hacc]
  · intro hdisk hacc
    unfold downloadFile
    rw [hdisk]
    simp only [if_true]
    cases hm : db.messages.find? (fun m =>
        m.fileUrl == some ("/files/download/" ++ filename) &&
          (m.senderId == userId || m.receiverId == userId)) with
    | none => rfl
    | some m =>
      exfalso
      unfold downloadAccess at hacc
      rw [hm] at hacc
      simp at hacc

/-- Witness for C5 at a concrete input: bob is denied on both retrieval
paths with the NotFoundException errors. -/
theorem C5_denied_error_witness :
    getFile exC5DB ["uploads/ab.txt"] "f1" "bob"
      = Except.error (HttpError.notFound "File not found") ∧
    downloadFile exC5DB ["./uploads/ab.txt"] "ab.txt" (some "bob")
      = Except.error
          (HttpError.notFound "File not found or access denied") := by
  constructor
  · exact (C5_denied_error exC5DB ["uploads/ab.txt"] "f1" "ab.txt" "bob").1
      (by decide)
  · exact (C5_denied_error exC5DB ["./uploads/ab.txt"] "f1" "ab.txt" "bob").2
      (by decide) (by decide)

/-- C8: whenever the file id is unknown or the access check is negative, the
id-based retrieval endpoint and the file-info endpoint both answer the very
same `NotFoundException("File not found")`, so a requester lacking access
cannot distinguish an existing-but-forbidden file from a nonexistent one. -/
theorem C8_forbidden_indistinguishable (db : DB) (disk : List String)
    (id userId : String)
    (h : db.files.find? (fun f => f.id == id) = none ∨
      checkFileAccess db id userId = false) :
    getFile db disk id userId
      = Except.error (HttpError.notFound "File not found") ∧
    getFileInfo db id userId
      = Except.error (HttpError.notFound "File not found") := by
  unfold getFile getFileInfo
  cases hf : db.files.find? (fun f => f.id == id) with
  | none => exact ⟨rfl, rfl⟩
  | some file =>
    rcases h with h | h
    · rw [hf] at h
      cases h
    · simp [h]

/-- Witness for C8 at a concrete input: for bob, the forbidden file "f1" and
the nonexistent id "missing" both yield the same 404 on both endpoints. -/
theorem C8_forbidden_indistinguishable_witness :
    (getFile exC5DB [] "f1" "bob"
        = Except.error (HttpError.notFound "File not found") ∧
      getFileInfo exC5DB "f1" "bob"
        = Except.error (HttpError.notFound "File not found")) ∧
    (getFile exC5DB [] "missing" "bob"
        = Except.error (HttpError.notFound "File not found") ∧
      getFileInfo exC5DB "missing" "bob"
        = Except.error (HttpError.notFound "File not found")) := by
  constructor
  · exact C8_forbidden_indistinguishable exC5DB [] "f1" "bob"
      (Or.inr (by decide))
  · exact C8_forbidden_indistinguishable exC5DB [] "missing" "bob"
      (Or.inl (by decide))

/-! ## Relay upload (FilesController.uploadFile) as an effect trace -/

/-- The fields of the multer `Express.Multer.File` the controller reads. -/
structure MulterFile where
  originalname : String
  filename : String
  mimetype : String
  path : String
  size : Nat
deriving DecidableEq, Repr

/-- The observable effects of `FilesController.uploadFile`, in order:
the `prisma.message.create` call (with its outcome), the
`chatGateway.notifyFileUploadComplete` call, and `fs.unlinkSync`. -/
inductive UploadEffect where
  | persistMessage (m : MessageRec) (ok : Bool)
  | notifyFileUploadComplete (m : MessageRec)
  | unlink (path : String)
deriving DecidableEq, Repr

/-- Errors thrown by `FilesController.uploadFile`: the NestJS
`BadRequestException`s of its guard clauses, and the database error rethrown
verbatim from the catch block. -/
inductive UploadError where
  | badRequest (msg : String)
  | storage (msg : String)
deriving DecidableEq, Repr

/-- The Message row `FilesController.uploadFile` hands to
`prisma.message.create`: content `Sent a file: <originalname>`, kind `file`,
the file columns, `fileUrl = /files/download/<filename>`; `isRead` is not in
the create data, so the schema default `false` applies, and `fileId` is not
set either. -/
def mkRelayFileMessage (newId : String) (file : MulterFile)
    (senderId receiverId : String) : MessageRec :=
  { id := newId,
    content := "Sent a file: " ++ file.originalname,
    isRead := false,
    type := "file",
    fileName := some file.originalname,
    fileSize := some file.size,
    fileType := some file.mimetype,
    fileUrl := some ("/files/download/" ++ file.filename),
    fileId := none,
    senderId := senderId,
    receiverId := receiverId }

/-- The cleanup pattern of the controller:
`if (fs.existsSync(file.path)) fs.unlinkSync(file.path)`. -/
def unlinkIfExists (disk : List String) (p : String) : List UploadEffect :=
  if disk.contains p then [UploadEffect.unlink p] else []

/-- `FilesController.uploadFile`, straight-line: reject a missing file,
reject and clean up on missing sender or receiver id, then
`prisma.message.create`; on success notify the gateway and return the
message, on a storage failure delete the uploaded file and rethrow the
database error. `disk` is the set of paths on disk (the uploaded bytes are
at `file.path`), `storageFailure` is the storage collaborator's outcome,
`newId` the id the database would assign. -/
def uploadFile (file? : Option MulterFile) (senderId? receiverId? : Option String)
    (disk : List String) (storageFailure : Option String) (newId : String) :
    Except UploadError MessageRec × List UploadEffect :=
  match file? with
  | none => (Except.error (UploadError.badRequest "No file uploaded"), [])
  | some file =>
    match senderId? with
    | none => (Except.error (UploadError.badRequest "Invalid user authentication"),
        unlinkIfExists disk file.path)
    | some senderId =>
      match receiverId? with
      | none => (Except.error (UploadError.badRequest "Receiver ID is required"),
          unlinkIfExists disk file.path)
      | some receiverId =>
        let m := mkRelayFileMessage newId file senderId receiverId
        match storageFailure with
        | some err => (Except.error (UploadError.storage err),
            UploadEffect.persistMessage m false :: unlinkIfExists disk file.path)
        | none => (Except.ok m,
            [UploadEffect.persistMessage m true,
             UploadEffect.notifyFileUploadComplete m])

/-- The disk contents after the effects ran: every unlinked path is gone. -/
def diskAfterEffects (disk : List String) (effs : List UploadEffect) :
    List String :=
  disk.filter (fun p => !(effs.contains (UploadEffect.unlink p)))

/-! ## Theorems for C3 and C4 -/

/-- C3: whenever the relay upload emits the completion notification, the
notified message is of kind file, the operation succeeded, and the
successful persistence of that very message appears strictly earlier in the
effect trace (persist-before-deliver). -/
theorem C3_persist_before_notify (file? : Option MulterFile)
    (senderId? receiverId? : Option String) (disk : List String)
    (storageFailure : Option String) (newId : String) (m : MessageRec)
    (h : UploadEffect.notifyFileUploadComplete m ∈
      (uploadFile file? senderId? receiverId? disk storageFailure newId).2) :
    m.type = "file" ∧
    (uploadFile file? senderId? receiverId? disk storageFailure newId).1
      = Except.ok m ∧
    ∃ i j : Nat, i < j ∧
      (uploadFile file? senderId? receiverId? disk storageFailure newId).2.get? i
        = some (UploadEffect.persistMessage m true) ∧
      (uploadFile file? senderId? receiverId? disk storageFailure newId).2.get? j
        = some (UploadEffect.notifyFileUploadComplete m) := by
  have hnu : ∀ d p, UploadEffect.notifyFileUploadComplete m ∉ unlinkIfExists d p := by
    intro d p hmem
    unfold unlinkIfExists at hmem
    by_cases hc : d.contains p <;> simp [hc] at hmem
  match file?, senderId?, receiverId?, storageFailure with
  | none, _, _, _ => simp [uploadFile] at h
  | some file, none, _, _ => exact absurd h (hnu disk file.path)
  | some file, some s, none, _ => exact absurd h (hnu disk file.path)
  | some file, some s, some r, some err =>
    have h2 : UploadEffect.notifyFileUploadComplete m ∈
        (UploadEffect.persistMessage (mkRelayFileMessage newId file s r) false
          :: unlinkIfExists disk file.path) := h
    cases h2 with
    | tail _ h3 => exact absurd h3 (hnu disk file.path)
  | some file, some s, some r, none =>
    have h2 : UploadEffect.notifyFileUploadComplete m ∈
        [UploadEffect.persistMessage (mkRelayFileMessage newId file s r) true,
         UploadEffect.notifyFileUploadComplete
           (mkRelayFileMessage newId file s r)] := h
    cases h2 with
    | tail _ h3 =>
      cases h3 with
      | head => exact ⟨rfl, rfl, 0, 1, Nat.zero_lt_one, rfl, rfl⟩
      | tail _ h4 => cases h4

/-- Witness for C3 at a concrete input: a successful relay upload notifies
exactly the persisted message, after persisting it. -/
theorem C3_persist_before_notify_witness :
    (mkRelayFileMessage "m1"
        { originalname := "a.txt", filename := "u1.txt",
          mimetype := "text/plain", path := "uploads/u1.txt", size := 3 }
        "alice" "bob").type = "file" := by
  refine (C3_persist_before_notify
    (some { originalname := "a.txt", filename := "u1.txt",
            mimetype := "text/plain", path := "uploads/u1.txt", size := 3 })
    (some "alice") (some "bob") ["uploads/u1.txt"] none "m1"
    (mkRelayFileMessage "m1"
      { originalname := "a.txt", filename := "u1.txt",
        mimetype := "text/plain", path := "uploads/u1.txt", size := 3 }
      "alice" "bob") (by decide)).1

/-- C4: when the storage collaborator's write fails during the relay
upload, the operation aborts with exactly the storage error (rethrown, not
swallowed), the uploaded bytes are no longer on disk afterwards, and no
completion notification is ever emitted. -/
theorem C4_storage_failure_cleanup (file : MulterFile)
    (senderId receiverId : String) (disk : List String) (err newId : String) :
    (uploadFile (some file) (some senderId) (some receiverId) disk
        (some err) newId).1 = Except.error (UploadError.storage err) ∧
    file.path ∉ diskAfterEffects disk
      (uploadFile (some file) (some senderId) (some receiverId) disk
        (some err) newId).2 ∧
    ∀ m, UploadEffect.notifyFileUploadComplete m ∉
      (uploadFile (some file) (some senderId) (some receiverId) disk
        (some err) newId).2 := by
  refine ⟨rfl, ?_, ?_⟩
  · intro hmem
    unfold diskAfterEffects at hmem
    rw [List.mem_filter] at hmem
    obtain ⟨hdisk, hkeep⟩ := hmem
    simp only [uploadFile, unlinkIfExists] at hkeep
    have hc : disk.contains file.path = true := List.elem_iff.mpr hdisk
    rw [hc] at hkeep
    simp at hkeep
  · intro m hmem
    simp only [uploadFile, unlinkIfExists, List.mem_cons] at hmem
    rcases hmem with h | h
    · cases h
    · by_cases hc : disk.contains file.path <;> simp [hc] at h

/-- Witness for C4 at a concrete input: with the uploaded bytes on disk and
a failing database, the upload errors and the bytes are removed. -/
theorem C4_storage_failure_cleanup_witness :
    (uploadFile
        (some { originalname := "a.txt", filename := "u1.txt",
                mimetype := "text/plain", path := "uploads/u1.txt", size := 3 })
        (some "alice") (some "bob") ["uploads/u1.txt"]
        (some "db down") "m1").1
      = Except.error (UploadError.storage "db down") :=
  (C4_storage_failure_cleanup
    { originalname := "a.txt", filename := "u1.txt",
      mimetype := "text/plain", path := "uploads/u1.txt", size := 3 }
    "alice" "bob" ["uploads/u1.txt"] "db down" "m1").1

/-! ## Message lifecycle (C6) -/

/-- Modelled from the spec: `send(senderId, receiverId, content, kind)` of
the Message Router (§4.4) persists a text Message (the chat gateway that
implements it is not among the provided sources). The created row carries
only the create data; `isRead BOOLEAN NOT NULL DEFAULT false` and
`type TEXT NOT NULL DEFAULT 'text'` of the schema fill the rest. -/
def mkTextMessage (newId senderId receiverId content : String) : MessageRec :=
  { id := newId,
    content := content,
    isRead := false,
    type := "text",
    fileName := none,
    fileSize := none,
    fileType := none,
    fileUrl := none,
    fileId := none,
    senderId := senderId,
    receiverId := receiverId }

/-- Modelled from the spec: `markRead(messageId, readerId)` of the Message
Router (§4.4) "flips isRead" on delivery/acknowledgement, i.e. sets the flag
of the message with that id to true (the chat gateway that implements it is
not among the provided sources). -/
def markRead (db : DB) (messageId : String) : DB :=
  { db with messages := db.messages.map (fun m =>
      if m.id == messageId then { m with isRead := true } else m) }

/-- The operations of the repository that create or mutate Message rows:
the relay upload of FilesController.uploadFile, the Message Router's send,
and markRead. -/
inductive MsgOp where
  | relayUpload (file : MulterFile) (senderId receiverId newId : String)
  | sendMessage (senderId receiverId content newId : String)
  | readFlip (messageId : String)
deriving DecidableEq, Repr

/-- One operation applied to the persisted state. The create operations
append the row built from their create data, exactly as
`prisma.message.create` does. -/
def applyMsgOp (db : DB) : MsgOp → DB
  | MsgOp.relayUpload file senderId receiverId newId =>
    { db with messages :=
        db.messages ++ [mkRelayFileMessage newId file senderId receiverId] }
  | MsgOp.sendMessage senderId receiverId content newId =>
    { db with messages :=
        db.messages ++ [mkTextMessage newId senderId receiverId content] }
  | MsgOp.readFlip messageId => markRead db messageId

/-- The database assigns ids (cuid defaults): a create operation runs with
an id no existing message row carries; `messages_pkey` would reject a
duplicate. -/
def opFreshId (db : DB) : MsgOp → Prop
  | MsgOp.relayUpload _ _ _ newId => ∀ m ∈ db.messages, m.id ≠ newId
  | MsgOp.sendMessage _ _ _ newId => ∀ m ∈ db.messages, m.id ≠ newId
  | MsgOp.readFlip _ => True

/-- C6: under the primary-key invariant and fresh create ids, every message
row an operation adds starts with isRead = false, and no operation turns an
isRead = true row of the same id back into an isRead = false one. -/
theorem C6_isRead_monotone (db : DB) (op : MsgOp)
    (hWF : MessagesWF db) (hfresh : opFreshId db op) :
    (∀ m', m' ∈ (applyMsgOp db op).messages →
      (∀ m, m ∈ db.messages → m.id ≠ m'.id) → m'.isRead = false) ∧
    (∀ m m', m ∈ db.messages → m' ∈ (applyMsgOp db op).messages →
      m.id = m'.id → m.isRead = true → m'.isRead = true) := by
  cases op with
  | relayUpload file senderId receiverId newId =>
    constructor
    · intro m' hm' hnew
      simp only [applyMsgOp, List.mem_append, List.mem_singleton] at hm'
      rcases hm' with hm' | hm'
      · exact absurd rfl (hnew m' hm')
      · rw [hm']
        rfl
    · intro m m' hm hm' hid hread
      simp only [applyMsgOp, List.mem_append, List.mem_singleton] at hm'
      rcases hm' with hm' | hm'
      · rw [← hWF m m' hm hm' hid]
        exact hread
      · exfalso
        apply hfresh m hm
        rw [hid, hm']
        rfl
  | sendMessage senderId receiverId content newId =>
    constructor
    · intro m' hm' hnew
      simp only [applyMsgOp, List.mem_append, List.mem_singleton] at hm'
      rcases hm' with hm' | hm'
      · exact absurd rfl (hnew m' hm')
      · rw [hm']
        rfl
    · intro m m' hm hm' hid hread
      simp only [applyMsgOp, List.mem_append, List.mem_singleton] at hm'
      rcases hm' with hm' | hm'
      · rw [← hWF m m' hm hm' hid]
        exact hread
      · exfalso
        apply hfresh m hm
        rw [hid, hm']
        rfl
  | readFlip messageId =>
    constructor
    · intro m' hm' hnew
      simp only [applyMsgOp, markRead, List.mem_map] at hm'
      obtain ⟨m0, hm0, hm0eq⟩ := hm'
      exfalso
      apply hnew m0 hm0
      rw [← hm0eq]
      by_cases hc : m0.id == messageId <;> simp [hc]
    · intro m m' hm hm' hid hread
      simp only [applyMsgOp, markRead, List.mem_map] at hm'
      obtain ⟨m0, hm0, hm0eq⟩ := hm'
      have hm0id : m0.id = m'.id := by
        rw [← hm0eq]
        by_cases hc : m0.id == messageId <;> simp [hc]
      have hmm0 : m = m0 := hWF m m0 hm hm0 (by rw [hid, hm0id])
      rw [← hm0eq, ← hmm0]
      by_cases hc : m.id == messageId <;> simp [hc, hread]

/-- The read message of the C6 witness. -/
def exC6Msg : MessageRec :=
  { id := "m1", content := "hi", isRead := true, type := "text",
    fileName := none, fileSize := none, fileType := none,
    fileUrl := none, fileId := none, senderId := "alice",
    receiverId := "bob" }

/-- The database of the C6 witness: the one read message. -/
def exC6DB : DB := { users := [], messages := [exC6Msg], files := [] }

/-- The uploaded file of the C6 witness. -/
def exC6File : MulterFile :=
  { originalname := "a.txt", filename := "u1.txt",
    mimetype := "text/plain", path := "uploads/u1.txt", size := 3 }

/-- Witness for C6 at concrete inputs: uploading a file appends an unread
message, and flipping a read message keeps it read. -/
theorem C6_isRead_monotone_witness :
    (mkRelayFileMessage "m9" exC6File "alice" "bob").isRead = false ∧
    exC6Msg.isRead = true := by
  constructor
  · apply (C6_isRead_monotone exC6DB
      (MsgOp.relayUpload exC6File "alice" "bob" "m9")
      (by intro a b ha hb hab
          simp [exC6DB] at ha hb
          rw [ha, hb])
      (by intro m hm
          simp [exC6DB] at hm
          rw [hm, exC6Msg]
          decide)).1
    · simp [applyMsgOp, exC6DB]
    · intro m hm hcontra
      simp [exC6DB] at hm
      rw [hm] at hcontra
      exact absurd hcontra (by decide)
  · apply (C6_isRead_monotone exC6DB (MsgOp.readFlip "m1")
      (by intro a b ha hb hab
          simp [exC6DB] at ha hb
          rw [ha, hb])
      trivial).2 exC6Msg exC6Msg
    · simp [exC6DB]
    · show exC6Msg ∈ (applyMsgOp exC6DB (MsgOp.readFlip "m1")).messages
      decide
    · rfl
    · rfl

/-! ## Authentication (ManualAuthService, GoogleAuthService) -/

/-- The destructuring `const \x7b password: _, ...result \x7d = user` common
to all three auth operations: the returned record is the user row without
its password value. -/
def stripPassword (u : UserRec) : UserRec := { u with password := none }

/-- `ManualAuthService.validateCredentials(email, password)`:
`findUnique` by email; the guard
`user && user.password && await bcrypt.compare(password, user.password)`
makes a null or empty stored password falsy; on success the user without
the password field is returned, otherwise null. `compare` stands for
`bcrypt.compare`. -/
def validateCredentials (compare : String → String → Bool) (db : DB)
    (email pw : String) : Option UserRec :=
  match db.users.find? (fun u => u.email == email) with
  | none => none
  | some user =>
    match user.password with
    | none => none
    | some hp =>
      if !(hp == "") && compare pw hp then some (stripPassword user)
      else none

/-- `ManualAuthService.createUser(email, username, password)`: hash the
password (`bcrypt.hash(password, 10)` stands behind `hash`), create the row
(id `newId` assigned by the database), return it without the password
field. -/
def createUser (hash : String → String) (newId : String) (db : DB)
    (email username pw : String) : DB × UserRec :=
  let user : UserRec :=
    { id := newId, email := email, username := username,
      password := some (hash pw), googleId := none, avatar := none }
  ({ db with users := db.users ++ [user] }, stripPassword user)

/-- The profile GoogleAuthService.validateGoogleUser receives. -/
structure GoogleUser where
  googleId : String
  email : String
  username : String
  avatar : Option String
deriving DecidableEq, Repr

/-- The prisma `update` data `\x7b googleId, avatar \x7d` applied to a row:
`googleId` is set; `avatar` is set only when the profile carries one
(an undefined field is left unchanged by prisma). -/
def applyGoogleUpdate (g : GoogleUser) (u : UserRec) : UserRec :=
  { u with
    googleId := some g.googleId,
    avatar := (match g.avatar with
      | none => u.avatar
      | some a => some a) }

/-- `usernameTaken`: the `findUnique` by username inside the while loop of
validateGoogleUser, as a truthiness test. -/
def usernameTaken (db : DB) (un : String) : Bool :=
  (db.users.find? (fun u => u.username == un)).isSome

/-- The while loop of validateGoogleUser: starting from the Google
username, append `counter` and bump it while the candidate is taken. Run
with explicit fuel so the search is total; `none` means the fuel ran out. -/
def uniqueUsernameLoop (db : DB) (base : String) :
    Nat → String → Nat → Option String
  | 0, _, _ => none
  | Nat.succ fuel, current, counter =>
    if usernameTaken db current then
      uniqueUsernameLoop db base fuel (base ++ toString counter) (counter + 1)
    else some current

/-- `GoogleAuthService.validateGoogleUser(googleUser)`: look up by
googleId; else by email (then attach googleId/avatar to that row); else
create a fresh user under the first free uniquified username. In every case
the resulting row is returned without the password field, together with the
updated database. -/
def validateGoogleUser (fuel : Nat) (newId : String) (db : DB)
    (g : GoogleUser) : Option (DB × UserRec) :=
  match db.users.find? (fun u => u.googleId == some g.googleId) with
  | some user => some (db, stripPassword user)
  | none =>
    match db.users.find? (fun u => u.email == g.email) with
    | some user =>
      some ({ db with users := db.users.map (fun v =>
          if v.email == g.email then applyGoogleUpdate g v else v) },
        stripPassword (applyGoogleUpdate g user))
    | none =>
      match uniqueUsernameLoop db g.username fuel g.username 1 with
      | none => none
      | some un =>
        let user : UserRec :=
          { id := newId, email := g.email,
            username := un, password := none, googleId := some g.googleId,
            avatar := g.avatar }
        some ({ db with users := db.users ++ [user] }, stripPassword user)

/-! ## Theorems for C7 and C9 -/

/-- C7: assuming the UNIQUE index on email and that `bcrypt.compare`
against the empty string fails (the empty string is not a bcrypt hash),
the credential verifier returns exactly the matched account without its
password — some result iff a user with that email exists, has a stored
password hash matching the presented password, and the result is that row
stripped of the password; in every other case it returns null. -/
theorem C7_validateCredentials_spec (compare : String → String → Bool)
    (db : DB) (email pw : String)
    (hWF : UsersEmailWF db)
    (hbcrypt : compare pw "" = false) :
    (∀ r, validateCredentials compare db email pw = some r ↔
      ∃ u ∈ db.users, u.email = email ∧
        (∃ hp, u.password = some hp ∧ compare pw hp = true) ∧
        r = stripPassword u) ∧
    (validateCredentials compare db email pw = none ↔
      ¬ ∃ u ∈ db.users, u.email = email ∧
        ∃ hp, u.password = some hp ∧ compare pw hp = true) := by
  have key : ∀ r, validateCredentials compare db email pw = some r ↔
      ∃ u ∈ db.users, u.email = email ∧
        (∃ hp, u.password = some hp ∧ compare pw hp = true) ∧
        r = stripPassword u := by
    intro r
    cases hf : db.users.find? (fun u => u.email == email) with
    | none =>
      have hval : validateCredentials compare db email pw = none := by
        unfold validateCredentials
        rw [hf]
      have hno : ∀ u ∈ db.users, ¬ u.email = email := by
        intro u hu he
        have hp := List.find?_eq_none.mp hf u hu
        simp [he] at hp
      rw [hval]
      simp only [false_iff, reduceCtorEq]
      rintro ⟨u, hu, he, _⟩
      exact hno u hu he
    | some user =>
      obtain ⟨humem, hupred⟩ := find?_mem_and_pred hf
      have huemail : user.email = email := by simpa using hupred
      cases hpw : user.password with
      | none =>
        have hval : validateCredentials compare db email pw = none := by
          unfold validateCredentials
          simp only [hf, hpw]
        rw [hval]
        simp only [false_iff, reduceCtorEq]
        rintro ⟨u, hu, he, ⟨hp, hphash, _⟩, _⟩
        have huu : u = user := hWF u user hu humem (by rw [he, huemail])
        rw [huu, hpw] at hphash
        cases hphash
      | some hp =>
        by_cases hcmp : (!(hp == "") && compare pw hp) = true
        · have hval : validateCredentials compare db email pw
              = some (stripPassword user) := by
            unfold validateCredentials
            simp only [hf, hpw]
            rw [if_pos hcmp]
          rw [hval]
          constructor
          · intro hr
            have hr' : r = stripPassword user := by
              injection hr with hr2
              exact hr2.symm
            exact ⟨user, humem, huemail,
              ⟨hp, hpw, ((Bool.and_eq_true _ _).mp hcmp).2⟩, hr'⟩
          · rintro ⟨u, hu, he, _, hr⟩
            have huu : u = user := hWF u user hu humem (by rw [he, huemail])
            rw [hr, huu]
        · have hval : validateCredentials compare db email pw = none := by
            unfold validateCredentials
            simp only [hf, hpw]
            rw [if_neg hcmp]
          rw [hval]
          simp only [false_iff, reduceCtorEq]
          rintro ⟨u, hu, he, ⟨hq, hqhash, hqcmp⟩, _⟩
          have huu : u = user := hWF u user hu humem (by rw [he, huemail])
          rw [huu, hpw] at hqhash
          injection hqhash with hqeq
          apply hcmp
          rw [Bool.and_eq_true]
          constructor
          · rw [Bool.not_eq_eq_eq_not, Bool.not_true, beq_eq_false_iff_ne]
            intro hempty
            rw [← hqeq, hempty] at hqcmp
            rw [hbcrypt] at hqcmp
            cases hqcmp
          · rw [hqeq]
            exact hqcmp
  refine ⟨key, ?_⟩
  cases hv : validateCredentials compare db email pw with
  | none =>
    simp only [true_iff]
    rintro ⟨u, hu, he, hp, hphash, hcmp⟩
    have hsome := (key (stripPassword u)).mpr
      ⟨u, hu, he, ⟨hp, hphash, hcmp⟩, rfl⟩
    rw [hv] at hsome
    cases hsome
  | some r =>
    simp only [false_iff, not_not, reduceCtorEq]
    obtain ⟨u, hu, he, hcred, _⟩ := (key r).mp hv
    exact ⟨u, hu, he, hcred⟩

/-- A stand-in for `bcrypt.compare` in concrete runs: the hash of `p` is
`p ++ "#h"`. -/
def exCompare (p h : String) : Bool := (p ++ "#h") == h

/-- The user of the C7/C9 witnesses: alice with a stored password hash. -/
def exC7User : UserRec :=
  { id := "u1", email := "a@x.com", username := "alice",
    password := some "secret#h", googleId := none, avatar := none }

/-- The database of the C7/C9 witnesses. -/
def exC7DB : DB := { users := [exC7User], messages := [], files := [] }

/-- Witness for C7 at a concrete input: alice's correct credentials return
her record without the password, and a wrong password returns null. -/
theorem C7_validateCredentials_spec_witness :
    validateCredentials exCompare exC7DB "a@x.com" "secret"
      = some (stripPassword exC7User) ∧
    validateCredentials exCompare exC7DB "a@x.com" "wrong" = none := by
  have hWF : UsersEmailWF exC7DB := by
    intro a b ha hb hab
    simp [exC7DB] at ha hb
    rw [ha, hb]
  constructor
  · exact ((C7_validateCredentials_spec exCompare exC7DB "a@x.com" "secret"
      hWF (by decide)).1 (stripPassword exC7User)).mpr
      ⟨exC7User, by simp [exC7DB], rfl,
        ⟨"secret#h", rfl, by decide⟩, rfl⟩
  · refine ((C7_validateCredentials_spec exCompare exC7DB "a@x.com" "wrong"
      hWF (by decide)).2).mpr ?_
    rintro ⟨u, hu, he, hp, hphash, hcmp⟩
    simp [exC7DB] at hu
    rw [hu] at hphash
    rw [show exC7User.password = some "secret#h" from rfl] at hphash
    injection hphash with hpeq
    rw [← hpeq] at hcmp
    exact absurd hcmp (by decide)

/-- C9: none of the three authentication operations ever returns a record
carrying the stored password hash — validateCredentials, createUser and
validateGoogleUser all strip the password field from the row before
returning it. -/
theorem C9_password_stripped (compare : String → String → Bool)
    (hash : String → String) (db : DB) (email pw username newId : String)
    (fuel : Nat) (g : GoogleUser) :
    (∀ r, validateCredentials compare db email pw = some r →
      r.password = none) ∧
    (createUser hash newId db email username pw).2.password = none ∧
    (∀ db2 r, validateGoogleUser fuel newId db g = some (db2, r) →
      r.password = none) := by
  refine ⟨?_, rfl, ?_⟩
  · intro r hr
    unfold validateCredentials at hr
    split at hr
    · cases hr
    · split at hr
      · cases hr
      · split at hr
        · injection hr with h2
          rw [← h2]
          rfl
        · cases hr
  · intro db2 r hr
    unfold validateGoogleUser at hr
    split at hr
    · injection hr with h2
      injection h2 with h3 h4
      rw [← h4]
      rfl
    · split at hr
      · injection hr with h2
        injection h2 with h3 h4
        rw [← h4]
        rfl
      · split at hr
        · cases hr
        · injection hr with h2
          injection h2 with h3 h4
          rw [← h4]
          rfl

/-- The Google profile of the C9 witness. -/
def exG : GoogleUser :=
  { googleId := "g1", email := "c@x.com", username := "carol",
    avatar := none }

/-- The row validateGoogleUser creates for that profile on exC7DB. -/
def exC9NewUser : UserRec :=
  { id := "u9", email := "c@x.com", username := "carol",
    password := none, googleId := some "g1", avatar := none }

/-- Witness for C9 at concrete inputs: each of the three operations run on
concrete data yields a record whose password field is gone. -/
theorem C9_password_stripped_witness :
    (stripPassword exC7User).password = none ∧
    (createUser (fun p => p ++ "#h") "u2" exC7DB "b@x.com" "bob"
      "pw").2.password = none ∧
    (stripPassword exC9NewUser).password = none := by
  refine ⟨?_, ?_, ?_⟩
  · exact (C9_password_stripped exCompare (fun p => p ++ "#h") exC7DB
      "a@x.com" "secret" "bob" "u2" 5 exG).1 (stripPassword exC7User)
      (by decide)
  · exact (C9_password_stripped exCompare (fun p => p ++ "#h") exC7DB
      "b@x.com" "pw" "bob" "u2" 5 exG).2.1
  · exact (C9_password_stripped exCompare (fun p => p ++ "#h") exC7DB
      "a@x.com" "secret" "bob" "u9" 5 exG).2.2
      { users := exC7DB.users ++ [exC9NewUser], messages := [], files := [] }
      (stripPassword exC9NewUser) (by decide)
